import Mathlib

/-!
Shallow embedding of `mip.py` (`MultiPropInequality`): a wrapper over an
ndb query that routes filter expressions either into the backend query or
into a list of post-inequality filters evaluated locally while iterating.
-/

/-- Scalar values carried by filter nodes and by record properties.
`vnone` is Python `None` (the datastore null sentinel); `vdatetime` is a
combined `datetime.datetime` (day number, time-of-day number), `vdate` a
`datetime.date`, `vtime` a `datetime.time`. -/
inductive Value where
  | vnone : Value
  | vint : Int → Value
  | vstr : String → Value
  | vdatetime : Nat → Nat → Value
  | vdate : Nat → Value
  | vtime : Nat → Value
deriving DecidableEq, Repr

/-- Python exceptions that the code raises or catches: `TypeError`
(invalid constructor/filter argument, and unorderable comparisons) and
`NotImplementedError` (unsupported operator). -/
inductive PyErr where
  | typeError : String → PyErr
  | notImplementedError : String → PyErr
deriving DecidableEq, Repr

/-- The dictionary `_node_to_dict` builds from a `FilterNode`:
property name, operator symbol, comparison value. -/
structure Comparison where
  name : String
  symbol : String
  value : Value
deriving DecidableEq, Repr

/-- ndb filter nodes: `FilterNode` leaves, `ConjunctionNode`,
`DisjunctionNode`, and the remaining `Node` subclasses (e.g. `FalseNode`)
that `_get_inequalities` and `_check_node` both ignore. -/
inductive Node where
  | filterNode : String → String → Value → Node
  | conjunction : List Node → Node
  | disjunction : List Node → Node
  | falseNode : Node

/-- Declared property classes relevant to `_make_evaluator`:
`TimeProperty`, `DateProperty`, and everything else. -/
inductive PropType where
  | timeProperty : PropType
  | dateProperty : PropType
  | otherProperty : PropType
deriving DecidableEq, Repr

/-- A candidate record handed back by the datastore: every declared
property reads as some value, `Value.vnone` when unset/null
(`getattr(x, name)` on an ndb entity). -/
def Record : Type := String → Value

/-- Python 3 equality between our value types: values of different
runtime types compare unequal without raising; same-type values compare
structurally. -/
def pyEq (a b : Value) : Bool := decide (a = b)

/-- Python `<` on these types: defined within one type (int, str,
datetime lexicographic on (date, time), date, time), `TypeError` across
types and against `None`. -/
def pyLt (a b : Value) : Except PyErr Bool :=
  match a, b with
  | .vint x, .vint y => .ok (decide (x < y))
  | .vstr x, .vstr y => .ok (decide (x < y))
  | .vdatetime d1 t1, .vdatetime d2 t2 => .ok (decide (d1 < d2 ∨ (d1 = d2 ∧ t1 < t2)))
  | .vdate x, .vdate y => .ok (decide (x < y))
  | .vtime x, .vtime y => .ok (decide (x < y))
  | _, _ => .error (.typeError "unorderable types")

/-- Python `<=`; same domain as `pyLt`. -/
def pyLe (a b : Value) : Except PyErr Bool :=
  match a, b with
  | .vint x, .vint y => .ok (decide (x ≤ y))
  | .vstr x, .vstr y => .ok (decide (x ≤ y))
  | .vdatetime d1 t1, .vdatetime d2 t2 => .ok (decide (d1 < d2 ∨ (d1 = d2 ∧ t1 ≤ t2)))
  | .vdate x, .vdate y => .ok (decide (x ≤ y))
  | .vtime x, .vtime y => .ok (decide (x ≤ y))
  | _, _ => .error (.typeError "unorderable types")

/-- Python `>`; same domain as `pyLt`. -/
def pyGt (a b : Value) : Except PyErr Bool :=
  match a, b with
  | .vint x, .vint y => .ok (decide (y < x))
  | .vstr x, .vstr y => .ok (decide (y < x))
  | .vdatetime d1 t1, .vdatetime d2 t2 => .ok (decide (d2 < d1 ∨ (d2 = d1 ∧ t2 < t1)))
  | .vdate x, .vdate y => .ok (decide (y < x))
  | .vtime x, .vtime y => .ok (decide (y < x))
  | _, _ => .error (.typeError "unorderable types")

/-- Python `>=`; same domain as `pyLt`. -/
def pyGe (a b : Value) : Except PyErr Bool :=
  match a, b with
  | .vint x, .vint y => .ok (decide (y ≤ x))
  | .vstr x, .vstr y => .ok (decide (y ≤ x))
  | .vdatetime d1 t1, .vdatetime d2 t2 => .ok (decide (d2 < d1 ∨ (d2 = d1 ∧ t2 ≤ t1)))
  | .vdate x, .vdate y => .ok (decide (y ≤ x))
  | .vtime x, .vtime y => .ok (decide (y ≤ x))
  | _, _ => .error (.typeError "unorderable types")

mutual

/-- `MultiPropInequality._get_inequalities`: the comparisons (as dicts)
of every `FilterNode` in the tree whose symbol is not `=`, in child
order; other node kinds contribute nothing. -/
def getInequalities : Node → List Comparison
  | .filterNode n s v => if s ≠ "=" then [⟨n, s, v⟩] else []
  | .conjunction cs => getInequalitiesList cs
  | .disjunction cs => getInequalitiesList cs
  | .falseNode => []

/-- The `for f_n in f_node: inequalities.extend(...)` loop of
`_get_inequalities`. -/
def getInequalitiesList : List Node → List Comparison
  | [] => []
  | n :: rest => getInequalities n ++ getInequalitiesList rest

end

/-- `MultiPropInequality._get_first_inequality`. -/
def getFirstInequality (inqs : List Comparison) : Option Comparison :=
  if inqs.length = 0 then none else inqs.head?

/-- The `for inq in inequalities` loop of `_push_filter`: threads the
running `first_inequality` and reports whether the node must go to the
post filters (break on the first differing property name). -/
def pushFilterLoop : Option Comparison → List Comparison → Option Comparison × Bool
  | first, [] => (first, false)
  | none, inq :: rest => pushFilterLoop (some inq) rest
  | some fi, inq :: rest =>
    if fi.name ≠ inq.name then (some fi, true)
    else pushFilterLoop (some fi) rest

/-- An ndb `Query`: its kind's property map (for `_kind_map` lookups in
`_make_evaluator`) and the filters already attached to it. -/
structure Query where
  kindPT : String → PropType
  filters : Option Node

/-- `ndb.Query.filter`: attaches one more node to the query, conjoining
with any existing filters. -/
def Query.filter (q : Query) (n : Node) : Query :=
  { q with filters := some (match q.filters with
      | none => n
      | some f => Node.conjunction [f, n]) }

/-- The mutable state of a `MultiPropInequality` session. -/
structure MultiPropInequality where
  query : Query
  first_inequality : Option Comparison
  post_inq_filters : List Node

/-- `MultiPropInequality._push_filter`: returns the reported boolean
(`True` = added to post filters) together with the updated session. -/
def pushFilter (m : MultiPropInequality) (node : Node) : Bool × MultiPropInequality :=
  let r := pushFilterLoop m.first_inequality (getInequalities node)
  if r.2 then
    (true, { m with first_inequality := r.1,
                    post_inq_filters := m.post_inq_filters ++ [node] })
  else
    (false, { m with first_inequality := r.1 })

/-- Arguments passed to `MultiPropInequality.filter`: either an
`ndb.query.Node` or anything else (e.g. a plain string). -/
inductive FilterArg where
  | node : Node → FilterArg
  | notANode : FilterArg

/-- `MultiPropInequality.filter(*args)`: processes the arguments one at a
time; a non-`Node` argument raises `TypeError` at that point, leaving the
mutations already performed in place (the second component is the raised
exception, if any). -/
def filterArgs (m : MultiPropInequality) : List FilterArg → MultiPropInequality × Option PyErr
  | [] => (m, none)
  | .notANode :: _ => (m, some (.typeError "Filter should be instance of Node."))
  | .node n :: rest =>
    let r := pushFilter m n
    let m2 := if r.1 then r.2 else { r.2 with query := r.2.query.filter n }
    filterArgs m2 rest

/-- The constructor argument of `MultiPropInequality`: a `Model`
subclass (carrying its property map), a pre-built `Query`, or anything
else. -/
inductive ModelOrQuery where
  | metaModel : (String → PropType) → ModelOrQuery
  | queryArg : Query → ModelOrQuery
  | invalid : ModelOrQuery

/-- `MultiPropInequality.__init__`. -/
def init : ModelOrQuery → Except PyErr MultiPropInequality
  | .metaModel pt =>
    .ok { query := ⟨pt, none⟩,
          first_inequality := getFirstInequality (getInequalitiesList []),
          post_inq_filters := [] }
  | .queryArg q =>
    .ok { query := q,
          first_inequality := getFirstInequality
            (match q.filters with
             | none => []
             | some f => getInequalities f),
          post_inq_filters := [] }
  | .invalid => .error (.typeError "Must be a subclass of Model or an instance of Query.")

/-- The `make_closure` inner function of `_make_evaluator`: dispatches on
the operator symbol, raising `NotImplementedError` outside the six
recognized comparisons. -/
def makeClosure (f : Comparison) : Except PyErr (Record → Except PyErr Bool) :=
  if f.symbol = ">" then .ok (fun x => pyGt (x f.name) f.value)
  else if f.symbol = "<" then .ok (fun x => pyLt (x f.name) f.value)
  else if f.symbol = ">=" then .ok (fun x => pyGe (x f.name) f.value)
  else if f.symbol = "<=" then .ok (fun x => pyLe (x f.name) f.value)
  else if f.symbol = "!=" then .ok (fun x => .ok (!pyEq (x f.name) f.value))
  else if f.symbol = "=" then .ok (fun x => .ok (pyEq (x f.name) f.value))
  else .error (.notImplementedError ("Unsuported operator: " ++ f.symbol))

/-- `MultiPropInequality._make_evaluator`: converts the comparison value
back from a combined datetime to a time or date when the declared
property type is `TimeProperty` or `DateProperty`, then builds the
closure. -/
def makeEvaluator (pt : String → PropType) (f : Comparison) :
    Except PyErr (Record → Except PyErr Bool) :=
  let fd :=
    if pt f.name = PropType.timeProperty then
      match f.value with
      | .vdatetime _ t => { f with value := Value.vtime t }
      | _ => f
    else if pt f.name = PropType.dateProperty then
      match f.value with
      | .vdatetime d _ => { f with value := Value.vdate d }
      | _ => f
    else f
  makeClosure fd

/-- The `and_evaluators` closure of `_make_and_evaluator`: false on the
first false child, true when all children are true (true for an empty
list); a child's exception propagates. -/
def andEval (evs : List (Record → Except PyErr Bool)) (x : Record) : Except PyErr Bool :=
  match evs with
  | [] => .ok true
  | e :: rest =>
    match e x with
    | .ok true => andEval rest x
    | .ok false => .ok false
    | .error err => .error err

/-- The `or_evaluators` closure of `_make_or_evaluator`: true on the
first true child, false when all children are false (false for an empty
list); a child's exception propagates. -/
def orEval (evs : List (Record → Except PyErr Bool)) (x : Record) : Except PyErr Bool :=
  match evs with
  | [] => .ok false
  | e :: rest =>
    match e x with
    | .ok true => .ok true
    | .ok false => orEval rest x
    | .error err => .error err

mutual

/-- One step of the `for f_n in a_node` loop of
`MultiPropInequality._check_node`: a conjunction yields its AND
evaluator, a disjunction its OR evaluator, a filter node its comparison
evaluator, anything else (e.g. `FalseNode`) is ignored. -/
def checkOne (pt : String → PropType) : Node → Except PyErr (List (Record → Except PyErr Bool))
  | .conjunction cs =>
    match checkNode pt cs with
    | .ok evs => .ok [andEval evs]
    | .error e => .error e
  | .disjunction cs =>
    match checkNode pt cs with
    | .ok evs => .ok [orEval evs]
    | .error e => .error e
  | .filterNode n s v =>
    match makeEvaluator pt ⟨n, s, v⟩ with
    | .ok ev => .ok [ev]
    | .error e => .error e
  | .falseNode => .ok []

/-- `MultiPropInequality._check_node` over a list of subnodes. -/
def checkNode (pt : String → PropType) : List Node → Except PyErr (List (Record → Except PyErr Bool))
  | [] => .ok []
  | n :: rest =>
    match checkOne pt n with
    | .error e => .error e
    | .ok l1 =>
      match checkNode pt rest with
      | .error e => .error e
      | .ok l2 => .ok (l1 ++ l2)

end

/-- `MultiPropInequality._make_and_evaluator`. -/
def makeAndEvaluator (pt : String → PropType) (ns : List Node) :
    Except PyErr (Record → Except PyErr Bool) :=
  match checkNode pt ns with
  | .ok evs => .ok (andEval evs)
  | .error e => .error e

/-- The per-record body of `MultiPropInequality.__iter__`: keep the
record when the predicate returns true, drop it when false, drop it and
continue when the predicate raises `TypeError`, abort on any other
exception. -/
def iterLoop (pev : Record → Except PyErr Bool) : List Record → Except PyErr (List Record)
  | [] => .ok []
  | r :: rest =>
    match pev r with
    | .ok true =>
      match iterLoop pev rest with
      | .ok out => .ok (r :: out)
      | .error e => .error e
    | .ok false => iterLoop pev rest
    | .error (.typeError _) => iterLoop pev rest
    | .error e => .error e

/-- `MultiPropInequality.__iter__`: compile the post filters into one AND
evaluator, then stream the backend results through `iterLoop`. -/
def iterRun (m : MultiPropInequality) (results : List Record) : Except PyErr (List Record) :=
  match makeAndEvaluator m.query.kindPT m.post_inq_filters with
  | .error e => .error e
  | .ok pev => iterLoop pev results

mutual

/-- A tree whose leaves are all `=` comparisons combined by
conjunction/disjunction nodes (the "pure equality" trees of the
decomposer's edge case). -/
def eqOnly : Node → Bool
  | .filterNode _ s _ => s == "="
  | .conjunction cs => eqOnlyList cs
  | .disjunction cs => eqOnlyList cs
  | .falseNode => false

/-- `eqOnly` over a child list. -/
def eqOnlyList : List Node → Bool
  | [] => true
  | n :: rest => eqOnly n && eqOnlyList rest

end

mutual

/-- A tree built purely from conjunction combinators over comparison
leaves. -/
def andTree : Node → Bool
  | .filterNode _ _ _ => true
  | .conjunction cs => andTreeList cs
  | .disjunction _ => false
  | .falseNode => false

/-- `andTree` over a child list. -/
def andTreeList : List Node → Bool
  | [] => true
  | n :: rest => andTree n && andTreeList rest

end

mutual

/-- The comparison leaves of a tree, in left-to-right order. -/
def leavesOf : Node → List Comparison
  | .filterNode n s v => [⟨n, s, v⟩]
  | .conjunction cs => leavesOfList cs
  | .disjunction cs => leavesOfList cs
  | .falseNode => []

/-- `leavesOf` over a child list. -/
def leavesOfList : List Node → List Comparison
  | [] => []
  | n :: rest => leavesOf n ++ leavesOfList rest

end

/-- Compiling one comparison leaf and evaluating it against a record
independently of any surrounding tree. -/
def evalLeaf (pt : String → PropType) (c : Comparison) (x : Record) : Except PyErr Bool :=
  match makeEvaluator pt c with
  | .ok f => f x
  | .error e => .error e

/-- The boolean outcome of one leaf (false if the evaluation raised). -/
def leafBool (pt : String → PropType) (c : Comparison) (x : Record) : Bool :=
  match evalLeaf pt c x with
  | .ok b => b
  | .error _ => false

/-- Modelled from the spec (§3 Expression Node): the spec-side tagged
union with exactly the three variants Comparison / And / Or, used to
state the refinement between the spec's `extractInequalities` contract
and the code's `_get_inequalities`. -/
inductive SpecExpr where
  | cmp : String → String → Value → SpecExpr
  | andN : List SpecExpr → SpecExpr
  | orN : List SpecExpr → SpecExpr

mutual

/-- Reading a spec-side Expression Node as the corresponding ndb node. -/
def toNode : SpecExpr → Node
  | .cmp n s v => .filterNode n s v
  | .andN cs => .conjunction (toNodeList cs)
  | .orN cs => .disjunction (toNodeList cs)

/-- `toNode` over a child list. -/
def toNodeList : List SpecExpr → List Node
  | [] => []
  | e :: rest => toNode e :: toNodeList rest

end

mutual

/-- Modelled from the spec (§4.1): `extractInequalities` — a leaf yields
a one-element sequence containing itself when its operator is not `=`
and an empty sequence otherwise; And/Or yield the concatenation of the
results for their children, in child order. -/
def specExtractInequalities : SpecExpr → List Comparison
  | .cmp n s v => if s ≠ "=" then [⟨n, s, v⟩] else []
  | .andN cs => specExtractInequalitiesList cs
  | .orN cs => specExtractInequalitiesList cs

/-- `specExtractInequalities` over a child list (concatenation in child
order). -/
def specExtractInequalitiesList : List SpecExpr → List Comparison
  | [] => []
  | e :: rest => specExtractInequalities e ++ specExtractInequalitiesList rest

end

/-- A property map declaring every property as a non-temporal type. -/
def ptOther : String → PropType := fun _ => PropType.otherProperty

/-- A record whose every property is the null sentinel. -/
def nullRecord : Record := fun _ => Value.vnone

/-- A record with concrete salary and age properties. -/
def recYoung : Record := fun n =>
  if n = "salary" then Value.vint 60000
  else if n = "age" then Value.vint 25
  else Value.vnone

/-- A session whose chosen inequality property is `salary` and whose
post filters hold the deferred residual `age != 30`. -/
def sessionNeq : MultiPropInequality :=
  ⟨⟨ptOther, none⟩, some ⟨"salary", ">", Value.vint 50000⟩,
   [Node.filterNode "age" "!=" (Value.vint 30)]⟩

/-- A session whose chosen inequality property is `salary` and whose
post filters hold the deferred residual `age < 30`. -/
def sessionLt : MultiPropInequality :=
  ⟨⟨ptOther, none⟩, some ⟨"salary", ">", Value.vint 50000⟩,
   [Node.filterNode "age" "<" (Value.vint 30)]⟩

/-- A fresh session with no filters at all. -/
def freshSession : MultiPropInequality := ⟨⟨ptOther, none⟩, none, []⟩

/-- A session with chosen inequality property `salary`, no post
filters, and a post filter list holding an `in`-operator node. -/
def sessionBadOp : MultiPropInequality :=
  ⟨⟨ptOther, none⟩, some ⟨"salary", ">", Value.vint 50000⟩,
   [Node.filterNode "tags" "in" (Value.vint 3)]⟩

/-- A property map declaring `start` a time-of-day property and `day` a
calendar-date property. -/
def ptTemporal : String → PropType := fun n =>
  if n = "start" then PropType.timeProperty
  else if n = "day" then PropType.dateProperty
  else PropType.otherProperty

theorem pushFilterLoop_some_fst (q : Comparison) :
    ∀ l : List Comparison, (pushFilterLoop (some q) l).1 = some q
  | [] => rfl
  | inq :: rest => by
    by_cases h : q.name ≠ inq.name
    · simp [pushFilterLoop, h]
    · simp only [pushFilterLoop, if_neg h]
      exact pushFilterLoop_some_fst q rest

theorem pushFilterLoop_defer (q : Comparison) :
    ∀ l : List Comparison, (∃ c ∈ l, c.name ≠ q.name) →
      pushFilterLoop (some q) l = (some q, true)
  | [], h => absurd h (by simp)
  | inq :: rest, h => by
    by_cases hn : q.name ≠ inq.name
    · simp [pushFilterLoop, hn]
    · push_neg at hn
      obtain ⟨c, hc, hcn⟩ := h
      rcases List.mem_cons.mp hc with rfl | hmem
      · exact absurd hn.symm hcn
      · simp only [pushFilterLoop, hn, ne_eq, not_true_eq_false, if_false]
        exact pushFilterLoop_defer q rest ⟨c, hmem, hcn⟩

theorem pushFilter_first (m : MultiPropInequality) (c : Comparison) (node : Node)
    (h : m.first_inequality = some c) :
    ((pushFilter m node).2).first_inequality = some c := by
  simp only [pushFilter, h]
  split
  · simp [pushFilterLoop_some_fst]
  · simp [pushFilterLoop_some_fst]

theorem filterArgs_first (c : Comparison) :
    ∀ (args : List FilterArg) (m : MultiPropInequality),
      m.first_inequality = some c → ((filterArgs m args).1).first_inequality = some c
  | [], _, h => h
  | .notANode :: _, _, h => h
  | .node n :: rest, m, h => by
    have hp := pushFilter_first m c n h
    simp only [filterArgs]
    apply filterArgs_first c rest
    split
    · exact hp
    · exact hp

/-- Claim C1: once the Chosen Inequality Property (`first_inequality`) is
set, no later `_push_filter` or `filter` call reassigns it for the rest of
the session. -/
theorem claim_C1_chosen_property_immutable (m : MultiPropInequality) (c : Comparison)
    (h : m.first_inequality = some c) :
    (∀ node, ((pushFilter m node).2).first_inequality = some c) ∧
    (∀ args, ((filterArgs m args).1).first_inequality = some c) :=
  ⟨fun node => pushFilter_first m c node h, fun args => filterArgs_first c args m h⟩

theorem claim_C1_witness :
    ((filterArgs sessionNeq
        [FilterArg.node (Node.filterNode "age" "<" (Value.vint 30)),
         FilterArg.node (Node.filterNode "age" ">" (Value.vint 10))]).1).first_inequality
      = some ⟨"salary", ">", Value.vint 50000⟩ :=
  (claim_C1_chosen_property_immutable sessionNeq ⟨"salary", ">", Value.vint 50000⟩ rfl).2 _

mutual

theorem eqOnly_no_inequalities : (n : Node) → eqOnly n = true → getInequalities n = []
  | .filterNode nm s v, h => by
    have hs : s = "=" := by simpa [eqOnly] using h
    simp [getInequalities, hs]
  | .conjunction cs, h => by
    simpa [getInequalities] using eqOnly_no_inequalities_list cs (by simpa [eqOnly] using h)
  | .disjunction cs, h => by
    simpa [getInequalities] using eqOnly_no_inequalities_list cs (by simpa [eqOnly] using h)
  | .falseNode, h => by simp [eqOnly] at h

theorem eqOnly_no_inequalities_list :
    (ns : List Node) → eqOnlyList ns = true → getInequalitiesList ns = []
  | [], _ => rfl
  | n :: rest, h => by
    obtain ⟨h1, h2⟩ := Bool.and_eq_true_iff.mp (by simpa [eqOnlyList] using h)
    simp [getInequalitiesList, eqOnly_no_inequalities n h1,
      eqOnly_no_inequalities_list rest h2]

end

/-- Claim C2: a tree whose leaf comparisons are all `=` (including
compound AND/OR trees) is never pushed to the post filters — `filter`
routes it into the backend query — whatever the current chosen
inequality property is. -/
theorem claim_C2_pure_equality_accepted (m : MultiPropInequality) (n : Node)
    (h : eqOnly n = true) :
    pushFilter m n = (false, m) ∧
    filterArgs m [FilterArg.node n] = ({ m with query := m.query.filter n }, none) := by
  have hg : getInequalities n = [] := eqOnly_no_inequalities n h
  obtain ⟨mq, mf, mp⟩ := m
  constructor
  · simp [pushFilter, hg, pushFilterLoop]
  · simp [filterArgs, pushFilter, hg, pushFilterLoop]

theorem claim_C2_witness :
    pushFilter sessionNeq
      (Node.conjunction [Node.filterNode "dept" "=" (Value.vstr "eng"),
        Node.disjunction [Node.filterNode "age" "=" (Value.vint 30),
          Node.filterNode "city" "=" (Value.vstr "sf")]])
      = (false, sessionNeq) :=
  (claim_C2_pure_equality_accepted sessionNeq
    (Node.conjunction [Node.filterNode "dept" "=" (Value.vstr "eng"),
      Node.disjunction [Node.filterNode "age" "=" (Value.vint 30),
        Node.filterNode "city" "=" (Value.vstr "sf")]]) (by decide)).1

/-- Claim C3: an expression holding an inequality on a property that
differs from the already-set chosen inequality property is reported
deferred and appended (in submission order) to the post filter list;
`filter` does not touch the backend query for it. -/
theorem claim_C3_conflicting_inequality_deferred (m : MultiPropInequality)
    (q : Comparison) (node : Node)
    (h : m.first_inequality = some q)
    (hne : ∃ c ∈ getInequalities node, c.name ≠ q.name) :
    pushFilter m node = (true, { m with post_inq_filters := m.post_inq_filters ++ [node] }) ∧
    filterArgs m [FilterArg.node node]
      = ({ m with post_inq_filters := m.post_inq_filters ++ [node] }, none) := by
  have hl := pushFilterLoop_defer q (getInequalities node) hne
  obtain ⟨mq, mf, mp⟩ := m
  subst h
  have h1 : pushFilter ⟨mq, some q, mp⟩ node
      = (true, ⟨mq, some q, mp ++ [node]⟩) := by
    simp [pushFilter, hl]
  exact ⟨h1, by simp [filterArgs, h1]⟩

theorem claim_C3_witness :
    filterArgs sessionNeq [FilterArg.node (Node.filterNode "age" "<" (Value.vint 30))]
      = ({ sessionNeq with post_inq_filters :=
            sessionNeq.post_inq_filters ++ [Node.filterNode "age" "<" (Value.vint 30)] },
         none) :=
  (claim_C3_conflicting_inequality_deferred sessionNeq ⟨"salary", ">", Value.vint 50000⟩
    (Node.filterNode "age" "<" (Value.vint 30)) rfl
    ⟨⟨"age", "<", Value.vint 30⟩, by simp [getInequalities], by decide⟩).2

/-- Claim C9: a constructor argument that is neither a model nor a
query, and a `filter` argument that is not a `Node`, each raise
`TypeError` synchronously at the call. -/
theorem claim_C9_invalid_inputs_raise_typeerror :
    init ModelOrQuery.invalid
      = Except.error (PyErr.typeError "Must be a subclass of Model or an instance of Query.") ∧
    ∀ (m : MultiPropInequality) (rest : List FilterArg),
      filterArgs m (FilterArg.notANode :: rest)
        = (m, some (PyErr.typeError "Filter should be instance of Node.")) :=
  ⟨rfl, fun _ _ => rfl⟩

theorem filterArgs_split :
    ∀ (ns : List Node) (m : MultiPropInequality) (tail : List FilterArg),
      filterArgs m (ns.map FilterArg.node ++ FilterArg.notANode :: tail) =
        ((filterArgs m (ns.map FilterArg.node)).1,
          some (PyErr.typeError "Filter should be instance of Node.")) ∧
      (filterArgs m (ns.map FilterArg.node)).2 = none
  | [], _, _ => ⟨rfl, rfl⟩
  | n :: rest, m, tail => by
    simp only [List.map_cons, List.cons_append, filterArgs]
    exact filterArgs_split rest _ tail

/-- Claim C10: `filter` is not atomic across its argument list — every
`Node` argument before the first non-`Node` argument is already applied
when the `TypeError` is raised, the resulting state is exactly the state
after processing that prefix, and nothing after the bad argument is
processed. -/
theorem claim_C10_filter_not_atomic (ns : List Node) (m : MultiPropInequality)
    (tail : List FilterArg) :
    filterArgs m (ns.map FilterArg.node ++ FilterArg.notANode :: tail) =
      ((filterArgs m (ns.map FilterArg.node)).1,
        some (PyErr.typeError "Filter should be instance of Node.")) ∧
    (filterArgs m (ns.map FilterArg.node)).2 = none :=
  filterArgs_split ns m tail

theorem makeEvaluator_shape (pt : String → PropType) (f : Comparison) :
    ∃ v2, makeEvaluator pt f = makeClosure ⟨f.name, f.symbol, v2⟩ := by
  obtain ⟨nm, s, v⟩ := f
  simp only [makeEvaluator]
  by_cases h1 : pt nm = PropType.timeProperty
  · simp only [h1, if_true]
    cases v <;> exact ⟨_, rfl⟩
  · by_cases h2 : pt nm = PropType.dateProperty
    · simp only [h1, h2, if_true, if_false]
      cases v <;> exact ⟨_, rfl⟩
    · simp only [h1, h2, if_false]
      exact ⟨v, rfl⟩

/-- Claim C5: an operator symbol outside the six recognized comparisons
makes the evaluator compiler fail with `NotImplementedError`; submitting
such a node through `filter` raises nothing, and the failure surfaces
when iteration compiles the post filters. -/
theorem claim_C5_unsupported_operator (s : String)
    (h1 : s ≠ ">") (h2 : s ≠ "<") (h3 : s ≠ ">=") (h4 : s ≠ "<=")
    (h5 : s ≠ "!=") (h6 : s ≠ "=") :
    (∀ (pt : String → PropType) (n : String) (v : Value),
      makeEvaluator pt ⟨n, s, v⟩
        = Except.error (PyErr.notImplementedError ("Unsuported operator: " ++ s))) ∧
    (∀ (m : MultiPropInequality) (node : Node),
      (filterArgs m [FilterArg.node node]).2 = none) ∧
    (∀ (m : MultiPropInequality) (n : String) (v : Value) (recs : List Record),
      m.post_inq_filters = [Node.filterNode n s v] →
      iterRun m recs
        = Except.error (PyErr.notImplementedError ("Unsuported operator: " ++ s))) := by
  have hclosure : ∀ (n : String) (v2 : Value),
      makeClosure ⟨n, s, v2⟩
        = Except.error (PyErr.notImplementedError ("Unsuported operator: " ++ s)) := by
    intro n v2
    simp [makeClosure, h1, h2, h3, h4, h5, h6]
  have hev : ∀ (pt : String → PropType) (n : String) (v : Value),
      makeEvaluator pt ⟨n, s, v⟩
        = Except.error (PyErr.notImplementedError ("Unsuported operator: " ++ s)) := by
    intro pt n v
    obtain ⟨v2, hshape⟩ := makeEvaluator_shape pt ⟨n, s, v⟩
    rw [hshape]
    exact hclosure n v2
  refine ⟨hev, ?_, ?_⟩
  · intro m node
    simp [filterArgs]
  · intro m n v recs hm
    simp only [iterRun, makeAndEvaluator, hm, checkNode, checkOne, hev]

theorem claim_C5_witness :
    iterRun sessionBadOp []
      = Except.error (PyErr.notImplementedError ("Unsuported operator: " ++ "in")) :=
  (claim_C5_unsupported_operator "in" (by decide) (by decide) (by decide)
    (by decide) (by decide) (by decide)).2.2 sessionBadOp "tags" (Value.vint 3) [] rfl

/-- Claim C8: when the declared property type is `TimeProperty` or
`DateProperty` and the comparison value arrived as a combined datetime,
the compiler converts it back to a time or date before building the
closure; any value that is not a combined datetime is left unchanged. -/
theorem claim_C8_temporal_normalization (pt : String → PropType) (nm s : String)
    (d t : Nat) :
    (pt nm = PropType.timeProperty →
      makeEvaluator pt ⟨nm, s, Value.vdatetime d t⟩ = makeClosure ⟨nm, s, Value.vtime t⟩) ∧
    (pt nm = PropType.dateProperty →
      makeEvaluator pt ⟨nm, s, Value.vdatetime d t⟩ = makeClosure ⟨nm, s, Value.vdate d⟩) ∧
    (∀ v : Value, (∀ d2 t2, v ≠ Value.vdatetime d2 t2) →
      makeEvaluator pt ⟨nm, s, v⟩ = makeClosure ⟨nm, s, v⟩) := by
  refine ⟨?_, ?_, ?_⟩
  · intro h
    simp [makeEvaluator, h]
  · intro h
    simp [makeEvaluator, h]
  · intro v hv
    cases v <;>
      first
        | exact absurd rfl (hv _ _)
        | (simp only [makeEvaluator]; split <;> first | rfl | rw [ite_self])

theorem claim_C8_witness :
    makeEvaluator ptTemporal ⟨"start", "<", Value.vdatetime 5 7⟩
      = makeClosure ⟨"start", "<", Value.vtime 7⟩ :=
  (claim_C8_temporal_normalization ptTemporal "start" "<" 5 7).1 rfl

theorem pyLt_vnone (v : Value) :
    pyLt Value.vnone v = Except.error (PyErr.typeError "unorderable types") := by
  cases v <;> rfl

theorem pyLe_vnone (v : Value) :
    pyLe Value.vnone v = Except.error (PyErr.typeError "unorderable types") := by
  cases v <;> rfl

theorem pyGt_vnone (v : Value) :
    pyGt Value.vnone v = Except.error (PyErr.typeError "unorderable types") := by
  cases v <;> rfl

theorem pyGe_vnone (v : Value) :
    pyGe Value.vnone v = Except.error (PyErr.typeError "unorderable types") := by
  cases v <;> rfl

theorem makeClosure_order_vnone (nm : String) (v2 : Value) (r : Record)
    (hr : r nm = Value.vnone) (sym : String)
    (hsym : sym = "<" ∨ sym = "<=" ∨ sym = ">" ∨ sym = ">=") :
    ∃ ev, makeClosure ⟨nm, sym, v2⟩ = Except.ok ev ∧
      ev r = Except.error (PyErr.typeError "unorderable types") := by
  rcases hsym with h | h | h | h <;> subst h
  · exact ⟨_, rfl, by show pyLt (r nm) v2 = _; rw [hr]; exact pyLt_vnone v2⟩
  · exact ⟨_, rfl, by show pyLe (r nm) v2 = _; rw [hr]; exact pyLe_vnone v2⟩
  · exact ⟨_, rfl, by show pyGt (r nm) v2 = _; rw [hr]; exact pyGt_vnone v2⟩
  · exact ⟨_, rfl, by show pyGe (r nm) v2 = _; rw [hr]; exact pyGe_vnone v2⟩

/-- Claim C4 is refuted as stated: the record whose `age` is null is NOT
excluded from the output when the residual comparison is `age != 30` —
Python evaluates `None != 30` to true, so the record is yielded. -/
theorem claim_C4_counterexample :
    nullRecord "age" = Value.vnone ∧
    sessionNeq.post_inq_filters = [Node.filterNode "age" "!=" (Value.vint 30)] ∧
    iterRun sessionNeq [nullRecord] = Except.ok [nullRecord] :=
  ⟨rfl, rfl, rfl⟩

/-- Claim C4 (amended): a record whose value for the property referenced
by a residual ORDER comparison (`<`, `<=`, `>`, `>=`) is the null
sentinel is excluded from the output — the comparison raises the
suppressed `TypeError` — and iteration of the remaining records
continues unchanged; a failure that is not a `TypeError` propagates to
the caller. -/
theorem claim_C4_null_order_comparison_skipped (nm sym : String) (v : Value)
    (m : MultiPropInequality) (r : Record) (recs : List Record)
    (hsym : sym = "<" ∨ sym = "<=" ∨ sym = ">" ∨ sym = ">=")
    (hm : m.post_inq_filters = [Node.filterNode nm sym v])
    (hr : r nm = Value.vnone) :
    iterRun m (r :: recs) = iterRun m recs ∧
    (∀ (pev : Record → Except PyErr Bool) (x : Record) (rest : List Record) (e : PyErr),
      pev x = Except.error e → (∀ msg, e ≠ PyErr.typeError msg) →
      iterLoop pev (x :: rest) = Except.error e) := by
  constructor
  · obtain ⟨v2, hshape⟩ := makeEvaluator_shape m.query.kindPT ⟨nm, sym, v⟩
    obtain ⟨ev, hok, herr⟩ := makeClosure_order_vnone nm v2 r hr sym hsym
    have hand : makeAndEvaluator m.query.kindPT m.post_inq_filters
        = Except.ok (andEval [ev]) := by
      simp only [makeAndEvaluator, hm, checkNode, checkOne, hshape, hok, List.append_nil]
    have hpev : andEval [ev] r = Except.error (PyErr.typeError "unorderable types") := by
      simp only [andEval, herr]
    simp only [iterRun, hand, iterLoop, hpev]
  · intro pev x rest e hpev hne
    cases e with
    | typeError msg => exact absurd rfl (hne msg)
    | notImplementedError msg => simp only [iterLoop, hpev]

theorem claim_C4_witness :
    iterRun sessionLt (nullRecord :: [recYoung]) = iterRun sessionLt [recYoung] ∧
    (∀ (pev : Record → Except PyErr Bool) (x : Record) (rest : List Record) (e : PyErr),
      pev x = Except.error e → (∀ msg, e ≠ PyErr.typeError msg) →
      iterLoop pev (x :: rest) = Except.error e) :=
  claim_C4_null_order_comparison_skipped "age" "<" (Value.vint 30) sessionLt
    nullRecord [recYoung] (Or.inl rfl) rfl rfl

mutual

theorem getInequalities_toNode : (e : SpecExpr) →
    getInequalities (toNode e) = specExtractInequalities e
  | .cmp n s v => rfl
  | .andN cs => by
    simp only [toNode, getInequalities, specExtractInequalities]
    exact getInequalitiesList_toNodeList cs
  | .orN cs => by
    simp only [toNode, getInequalities, specExtractInequalities]
    exact getInequalitiesList_toNodeList cs

theorem getInequalitiesList_toNodeList : (es : List SpecExpr) →
    getInequalitiesList (toNodeList es) = specExtractInequalitiesList es
  | [] => rfl
  | e :: rest => by
    simp only [toNodeList, getInequalitiesList, specExtractInequalitiesList]
    rw [getInequalities_toNode e, getInequalitiesList_toNodeList rest]

end

/-- Claim C7: on every finite spec-side expression tree, the code's
`_get_inequalities` returns exactly what the spec's
`extractInequalities` contract demands — a non-`=` leaf yields the
one-element sequence of itself, an `=` leaf the empty sequence, and
And/Or the concatenation in child order of the children's results. -/
theorem claim_C7_classifier_refines_spec (e : SpecExpr) :
    getInequalities (toNode e) = specExtractInequalities e :=
  getInequalities_toNode e

mutual

theorem andTree_checkOne_eval (pt : String → PropType) (x : Record) :
    (n : Node) → andTree n = true →
    (∀ c ∈ leavesOf n, ∃ b, evalLeaf pt c x = Except.ok b) →
    ∃ ev, checkOne pt n = Except.ok [ev] ∧
      ev x = Except.ok ((leavesOf n).all fun c => leafBool pt c x)
  | .filterNode nm s v, _, hOk => by
    obtain ⟨b, hb⟩ := hOk ⟨nm, s, v⟩ (by simp [leavesOf])
    rcases hE : makeEvaluator pt ⟨nm, s, v⟩ with e | f
    · rw [evalLeaf, hE] at hb
      exact absurd hb (by simp)
    · refine ⟨f, ?_, ?_⟩
      · simp only [checkOne, hE]
      · have hfx : f x = Except.ok b := by simpa [evalLeaf, hE] using hb
        have hlf : leafBool pt ⟨nm, s, v⟩ x = b := by
          simp [leafBool, evalLeaf, hE, hfx]
        simp [leavesOf, hlf, hfx]
  | .conjunction cs, hAnd, hOk => by
    obtain ⟨evs, h1, h2⟩ := andTree_checkNode_eval pt x cs
      (by simpa [andTree] using hAnd)
      (by simpa [leavesOf] using hOk)
    refine ⟨andEval evs, ?_, ?_⟩
    · simp only [checkOne, h1]
    · simpa [leavesOf] using h2
  | .disjunction cs, hAnd, _ => by simp [andTree] at hAnd
  | .falseNode, hAnd, _ => by simp [andTree] at hAnd

theorem andTree_checkNode_eval (pt : String → PropType) (x : Record) :
    (ns : List Node) → andTreeList ns = true →
    (∀ c ∈ leavesOfList ns, ∃ b, evalLeaf pt c x = Except.ok b) →
    ∃ evs, checkNode pt ns = Except.ok evs ∧
      andEval evs x = Except.ok ((leavesOfList ns).all fun c => leafBool pt c x)
  | [], _, _ => ⟨[], rfl, rfl⟩
  | n :: rest, hAnd, hOk => by
    obtain ⟨hA1, hA2⟩ := Bool.and_eq_true_iff.mp (by simpa [andTreeList] using hAnd)
    obtain ⟨ev, h1, h2⟩ := andTree_checkOne_eval pt x n hA1
      (fun c hc => hOk c (by simp [leavesOfList, hc]))
    obtain ⟨evs, h3, h4⟩ := andTree_checkNode_eval pt x rest hA2
      (fun c hc => hOk c (by simp [leavesOfList, hc]))
    refine ⟨ev :: evs, ?_, ?_⟩
    · simp only [checkNode, h1, h3]
      rfl
    · cases hb1 : (leavesOf n).all fun c => leafBool pt c x
      · rw [hb1] at h2
        simp [andEval, h2, leavesOfList, List.all_append, hb1]
      · rw [hb1] at h2
        simp [andEval, h2, leavesOfList, List.all_append, hb1, h4]

end

/-- Claim C6: for a tree built purely from AND combinators over
comparison leaves, when every leaf evaluates without raising, the
compiled predicate returns exactly the logical AND of the independently
evaluated leaves (so the short-circuit order never changes the
outcome), and the compiled AND of zero children evaluates to true. -/
theorem claim_C6_and_roundtrip (pt : String → PropType) (x : Record) (n : Node)
    (hAnd : andTree n = true)
    (hOk : ∀ c ∈ leavesOf n, ∃ b, evalLeaf pt c x = Except.ok b) :
    (∃ ev, checkOne pt n = Except.ok [ev] ∧
      ev x = Except.ok ((leavesOf n).all fun c => leafBool pt c x)) ∧
    (∃ ev0, checkOne pt (Node.conjunction []) = Except.ok [ev0] ∧
      ev0 x = Except.ok true) :=
  ⟨andTree_checkOne_eval pt x n hAnd hOk, ⟨andEval [], rfl, rfl⟩⟩

theorem claim_C6_witness :
    (∃ ev, checkOne ptOther
        (Node.conjunction [Node.filterNode "salary" ">" (Value.vint 50000),
          Node.conjunction [Node.filterNode "age" "<" (Value.vint 30)]])
        = Except.ok [ev] ∧
      ev recYoung = Except.ok
        ((leavesOf (Node.conjunction [Node.filterNode "salary" ">" (Value.vint 50000),
          Node.conjunction [Node.filterNode "age" "<" (Value.vint 30)]])).all
          fun c => leafBool ptOther c recYoung)) ∧
    (∃ ev0, checkOne ptOther (Node.conjunction []) = Except.ok [ev0] ∧
      ev0 recYoung = Except.ok true) :=
  claim_C6_and_roundtrip ptOther recYoung
    (Node.conjunction [Node.filterNode "salary" ">" (Value.vint 50000),
      Node.conjunction [Node.filterNode "age" "<" (Value.vint 30)]])
    rfl
    (by
      intro c hc
      simp [leavesOf, leavesOfList] at hc
      rcases hc with rfl | rfl
      · exact ⟨true, rfl⟩
      · exact ⟨true, rfl⟩)
